import Mathlib

/-!
Verification of the kvdo storage core against its natural-language
specification.  The definitions below are shallow embeddings of the C
functions in `src/uds` and `src/vdo`; machine integers are modelled as `Nat`
with explicit `% 2^w` where the C type's wrap-around matters.  Theorems state
and settle the spec's claims about those functions.
-/

/-! ## UDS volume chapter boundaries (`src/uds/volume.c`) -/

/-- Result codes returned by the UDS volume probing routines.  The concrete
integer values of the C codes are irrelevant to the control flow, which only
compares codes for equality, so they are modelled as a closed enumeration.
`assertionFailed` is the code produced by a failed `ASSERT`. -/
inductive UdsResult where
  | success
  | corruptComponent
  | corruptData
  | assertionFailed
  | error (code : Nat)
deriving DecidableEq, Repr

/-- Constant `UINT64_MAX`, the sentinel virtual chapter number used for bad chapters. -/
def UINT64_MAX : Nat := 2 ^ 64 - 1

/-- Constant `MAX_BAD_CHAPTERS` from `volume.c`: "max number of contiguous bad
chapters". -/
def MAX_BAD_CHAPTERS : Nat := 100

/-- Modelled from the spec: `permassert.h` is not among the sources.  `ASSERT`
evaluates its condition, returning `UDS_SUCCESS` when it holds and an
assertion-failure code otherwise, as its uses in `volume.c` require. -/
def udsAssert (cond : Bool) : UdsResult :=
  if cond then .success else .assertionFailed

/-- The binary-search loop of `findVolumeChapterBoundariesImpl`
(`volume.c:1135-1150`): searching for the index of the smallest probed value
less than `firstVCN`.  A probe is a function from a chapter number to a result
code and a virtual chapter number (the C out-parameter). -/
def fvcbSearch (probe : Nat → UdsResult × Nat) (firstVCN : Nat)
    (leftChapter rightChapter : Nat) : Except UdsResult Nat :=
  if h : leftChapter < rightChapter then
    let chapter := (leftChapter + rightChapter) / 2
    let pr := probe chapter
    if pr.1 ≠ .success then
      .error pr.1
    else if firstVCN ≤ pr.2 then
      fvcbSearch probe firstVCN (chapter + 1) rightChapter
    else
      fvcbSearch probe firstVCN leftChapter chapter
  else
    .ok leftChapter
termination_by rightChapter - leftChapter
decreasing_by
  · omega
  · omega

/-- The backward scan of `findVolumeChapterBoundariesImpl`
(`volume.c:1175-1190`): moving circularly backwards over bad chapters until a
good chapter (the highest VCN) is found, failing with `UDS_CORRUPT_COMPONENT`
once `badChapters` reaches `maxBadChapters`. -/
def fvcbBackScan (probe : Nat → UdsResult × Nat) (chapterLimit maxBadChapters : Nat)
    (rightChapter badChapters : Nat) : Except UdsResult Nat :=
  let rc := (rightChapter + chapterLimit - 1) % chapterLimit
  let pr := probe rc
  if pr.1 ≠ .success then
    .error pr.1
  else if pr.2 ≠ UINT64_MAX then
    .ok pr.2
  else if maxBadChapters ≤ badChapters + 1 then
    .error .corruptComponent
  else
    fvcbBackScan probe chapterLimit maxBadChapters rc (badChapters + 1)
termination_by maxBadChapters - badChapters
decreasing_by omega

/-- Function `findVolumeChapterBoundariesImpl` (`volume.c:1097-1202`).  Returns the
result code together with the `(*lowestVCN, *highestVCN)` out-parameters when
they are written (`none` when the function returns without writing them).
The C `ASSERT(leftChapter == rightChapter)` always holds because the search
loop exits only when the two meet, so it is not represented; the
`ASSERT(lowest != UINT64_MAX)` check is. -/
def findVolumeChapterBoundariesImpl (chapterLimit maxBadChapters : Nat)
    (probe : Nat → UdsResult × Nat) : UdsResult × Option (Nat × Nat) :=
  if chapterLimit = 0 then
    (.success, some (0, 0))
  else
    let pr0 := probe 0
    if pr0.1 ≠ .success then
      (.success, none)
    else
      match fvcbSearch probe pr0.2 0 chapterLimit with
      | .error r => (r, none)
      | .ok leftChapter =>
        let leftChapter' := leftChapter % chapterLimit
        let prLow := probe leftChapter'
        if prLow.1 ≠ .success then
          (prLow.1, none)
        else if prLow.2 = UINT64_MAX then
          (.assertionFailed, none)
        else
          match fvcbBackScan probe chapterLimit maxBadChapters leftChapter 0 with
          | .error r => (r, none)
          | .ok highest => (.success, some (prLow.2, highest))

/-- The loop of `findRealEndOfVolume` (`volume.c:1032-1068`): starting from
the end of the volume, skip over corrupt chapters with a doubling span until
the exact boundary of the real data is found.  `probe` is `probeChapter`;
only `UDS_CORRUPT_COMPONENT` is skipped, any other non-success result is
fatal.  The C loop is entered only with `span ≥ 1` (it starts at 1, is halved
only when above 1 and otherwise doubled), where the exit test `span == 1`
coincides with `span ≤ 1` as written here. -/
def findRealEndOfVolumeLoop (probe : Nat → UdsResult × Nat)
    (limit span tries : Nat) : Except UdsResult Nat :=
  if h : limit = 0 then
    .ok 0
  else if hs : span = 0 then
    -- Unreachable: the C loop maintains span ≥ 1.  Some value is needed here
    -- to make the recursion well-founded.
    .ok limit
  else
    let chapter := if span > limit then 0 else limit - span
    let pr := probe chapter
    if pr.1 = .success then
      if span ≤ 1 then
        .ok limit
      else
        findRealEndOfVolumeLoop probe limit (span / 2) 0
    else if pr.1 = .corruptComponent then
      findRealEndOfVolumeLoop probe chapter
        (if tries + 1 > 1 then span * 2 else span) (tries + 1)
    else
      .error pr.1
termination_by (limit, span)
decreasing_by
  · exact Prod.Lex.right limit (by omega)
  · refine Prod.Lex.left _ _ ?_
    split <;> omega

/-- Function `findRealEndOfVolume` (`volume.c:1032-1068`): returns the new chapter
limit written through `*limitPtr` on success. -/
def findRealEndOfVolume (probe : Nat → UdsResult × Nat) (limit : Nat) :
    Except UdsResult Nat :=
  findRealEndOfVolumeLoop probe limit 1 0

/-- Function `probeWrapper` (`volume.c:1015-1029`): treats `UDS_CORRUPT_COMPONENT` and
`UDS_CORRUPT_DATA` from `probeChapter` as a successful probe of the
`UINT64_MAX` sentinel. -/
def probeWrapper (probe : Nat → UdsResult × Nat) : Nat → UdsResult × Nat :=
  fun chapter =>
    let pr := probe chapter
    if pr.1 = .corruptComponent ∨ pr.1 = .corruptData then
      (.success, UINT64_MAX)
    else
      pr

/-- Function `findVolumeChapterBoundaries` (`volume.c:1071-1094`).  Returns the result
code, the `(*lowestVCN, *highestVCN)` out-parameters when written, and the
`*isEmpty` out-parameter when written. -/
def findVolumeChapterBoundaries (probe : Nat → UdsResult × Nat)
    (chaptersPerVolume : Nat) : UdsResult × Option (Nat × Nat) × Option Bool :=
  match findRealEndOfVolume probe chaptersPerVolume with
  | .error r => (r, none, none)
  | .ok chapterLimit =>
    if chapterLimit = 0 then
      (.success, some (0, 0), some true)
    else
      let ro := findVolumeChapterBoundariesImpl chapterLimit
        MAX_BAD_CHAPTERS (probeWrapper probe)
      (ro.1, ro.2, some false)

/-- The circular sequence of the C1 failing input: chapters `1, 2` hold
virtual chapter numbers `1, 2` and the single contiguous run of bad chapters
`3, 4, 5, 0` probes as the `UINT64_MAX` sentinel. -/
def c1BadWrapSequence : Nat → Nat := fun i =>
  if i = 1 then 1 else if i = 2 then 2 else UINT64_MAX

/-- C1: on the circular sequence `[MAX, 1, 2, MAX, MAX, MAX]` over 6 chapters
— monotonically increasing with a single run of 4 contiguous bad chapters,
well under `MAX_BAD_CHAPTERS` — `findVolumeChapterBoundariesImpl` trips its
own `ASSERT(lowest != UINT64_MAX)` and fails, instead of returning
`UDS_SUCCESS` with the minimum 1 and maximum 2: the binary search lands on
chapter 0, inside the bad run that wraps around the end of the volume. -/
theorem c1_boundaries_assertion_failure :
    findVolumeChapterBoundariesImpl 6 MAX_BAD_CHAPTERS
        (fun i => (.success, c1BadWrapSequence i)) = (.assertionFailed, none) := by
  simp [findVolumeChapterBoundariesImpl, fvcbSearch, c1BadWrapSequence,
    UINT64_MAX, MAX_BAD_CHAPTERS]

/-- C10: when the end-of-volume scan computes a chapter limit of 0 (no
chapter probes successfully), `findVolumeChapterBoundaries` returns
`UDS_SUCCESS` with `*lowestVCN = 0`, `*highestVCN = 0` and `*isEmpty = true`;
with any non-zero computed limit it sets `*isEmpty = false`. -/
theorem c10_empty_volume_flag (probe : Nat → UdsResult × Nat) (n m : Nat)
    (h : findRealEndOfVolume probe n = .ok m) :
    (m = 0 → findVolumeChapterBoundaries probe n = (.success, some (0, 0), some true)) ∧
    (m ≠ 0 → (findVolumeChapterBoundaries probe n).2.2 = some false) := by
  constructor
  · intro hm
    subst hm
    simp [findVolumeChapterBoundaries, h]
  · intro hm
    simp [findVolumeChapterBoundaries, h, hm]

/-- Witness for C10: a three-chapter volume in which every chapter probes as
corrupt yields an empty-volume result. -/
theorem c10_empty_volume_flag_witness :
    findVolumeChapterBoundaries (fun _ => (.corruptComponent, 0)) 3 =
      (.success, some (0, 0), some true) := by
  have h : findRealEndOfVolume (fun _ => (.corruptComponent, 0)) 3 = .ok 0 := by
    simp [findRealEndOfVolume, findRealEndOfVolumeLoop]
  exact (c10_empty_volume_flag _ 3 0 h).1 rfl

/-! ## Block-map logical zone and slot computation (`src/vdo/blockMap.c`) -/

/-- VDO status codes, modelled as a closed enumeration: the C code only
compares them for equality. -/
inductive VdoStatus where
  | success
  | corruptJournal
  | outOfRange
  | invalidFragment
  | readOnly
  | assertionFailed
  | error (code : Nat)
deriving DecidableEq, Repr

/-- Modelled from the spec: `vdo_compute_page_number` lives in a header that
is not among the sources; per the spec's tree-lookup step,
`page_index = lbn / entries_per_page`. -/
def vdo_compute_page_number (entriesPerPage lbn : Nat) : Nat :=
  lbn / entriesPerPage

/-- Modelled from the spec: `vdo_compute_slot` lives in a header that is not
among the sources; per the spec's tree-lookup step,
`slot = lbn % entries_per_page`. -/
def vdo_compute_slot (entriesPerPage lbn : Nat) : Nat :=
  lbn % entriesPerPage

/-- Function `vdo_compute_logical_zone` (`blockMap.c:378-387`): records the page index
and `root_index` in the data_vio's tree lock and returns the logical zone.
The result is `(page_index, root_index, zone)`. -/
def vdo_compute_logical_zone (entriesPerPage rootCount zoneCount lbn : Nat) :
    Nat × Nat × Nat :=
  let pageNumber := vdo_compute_page_number entriesPerPage lbn
  let rootIndex := pageNumber % rootCount
  (pageNumber, rootIndex, rootIndex % zoneCount)

/-- What `vdo_find_block_map_slot` (`blockMap.c:390-407`) does with a
data_vio: either finish it immediately with an error, or record the slot and
proceed to `vdo_lookup_block_map_pbn` (which lives outside the sources and is
represented by the `lookup` marker). -/
inductive FindSlotOutcome where
  | finished (code : VdoStatus)
  | lookup (slot : Nat)
deriving DecidableEq, Repr

/-- Function `vdo_find_block_map_slot` (`blockMap.c:390-407`). -/
def vdo_find_block_map_slot (entryCount entriesPerPage lbn : Nat) :
    FindSlotOutcome :=
  if lbn ≥ entryCount then
    .finished .outOfRange
  else
    .lookup (vdo_compute_slot entriesPerPage lbn)

/-- C7: a data_vio whose LBN is at or above the block map's entry count is
finished with `VDO_OUT_OF_RANGE` and no lookup is performed; any LBN below
the entry count proceeds to the block-map lookup. -/
theorem c7_lbn_out_of_range (entryCount entriesPerPage lbn : Nat) :
    (vdo_find_block_map_slot entryCount entriesPerPage lbn
        = .finished .outOfRange ↔ entryCount ≤ lbn) ∧
    (lbn < entryCount →
      vdo_find_block_map_slot entryCount entriesPerPage lbn
        = .lookup (lbn % entriesPerPage)) := by
  constructor
  · unfold vdo_find_block_map_slot
    split
    · simp_all
    · simp_all [vdo_compute_slot]
  · intro hlt
    unfold vdo_find_block_map_slot
    rw [if_neg (by omega)]
    rfl

/-- Witness for C7: with 100 block-map entries, LBN 42 proceeds to the
lookup with slot `42 % 812`. -/
theorem c7_lbn_out_of_range_witness :
    (vdo_find_block_map_slot 100 812 42 = .finished .outOfRange ↔ 100 ≤ 42) ∧
    vdo_find_block_map_slot 100 812 42 = .lookup (42 % 812) :=
  ⟨(c7_lbn_out_of_range 100 812 42).1,
   (c7_lbn_out_of_range 100 812 42).2 (by decide)⟩

/-- C8: `vdo_compute_logical_zone` sets `root_index = (lbn / entries_per_page)
% root_count` and returns `root_index % zone_count`, the forest striping
rule. -/
theorem c8_logical_zone (entriesPerPage rootCount zoneCount lbn : Nat) :
    vdo_compute_logical_zone entriesPerPage rootCount zoneCount lbn
      = (lbn / entriesPerPage,
         (lbn / entriesPerPage) % rootCount,
         ((lbn / entriesPerPage) % rootCount) % zoneCount) := by
  rfl

/-! ## Slab scrubber: applying journal entries (`src/vdo/slabScrubber.c`) -/

/-- A decoded slab-journal entry (`decode_vdo_slab_journal_entry`): a slab
block number and a journal operation. -/
structure SlabJournalEntry where
  sbn : Nat
  operation : Nat
deriving DecidableEq, Repr

/-- The loop of `apply_block_entries` (`slabScrubber.c:266-308`), with
`entry_point.entry_count` starting from `i`.  `entries` decodes the block's
entries; `replay` is `vdo_replay_reference_count_change` on the slab's ref
counts, which lives outside the sources and is abstracted as a function from
the journal point `(block_number, entry_count)` and entry to a status;
`applied` accumulates the indices of the entries handed to it. -/
def applyBlockEntriesLoop (entries : Nat → SlabJournalEntry)
    (entryCount blockNumber maxSbn : Nat)
    (replay : Nat × Nat → SlabJournalEntry → VdoStatus)
    (i : Nat) (applied : List Nat) : VdoStatus × List Nat :=
  if _h : i < entryCount then
    let entry := entries i
    if entry.sbn > maxSbn then
      (.corruptJournal, applied)
    else
      let r := replay (blockNumber, i) entry
      if r = .success then
        applyBlockEntriesLoop entries entryCount blockNumber maxSbn replay
          (i + 1) (applied ++ [i])
      else
        (r, applied ++ [i])
  else
    (.success, applied)
termination_by entryCount - i

/-- Function `apply_block_entries` (`slabScrubber.c:266-308`): `max_sbn` is
`slab->end - slab->start`.  Returns the status and the list of entry indices
passed to the ref-count replay. -/
def apply_block_entries (entries : Nat → SlabJournalEntry)
    (entryCount blockNumber maxSbn : Nat)
    (replay : Nat × Nat → SlabJournalEntry → VdoStatus) : VdoStatus × List Nat :=
  applyBlockEntriesLoop entries entryCount blockNumber maxSbn replay 0 []

/-- C2 counterexample: a block whose single entry has `sbn` equal to the slab
size (10) — outside the half-open range `[0, 10)` claimed to be the valid one
— is *not* treated as corrupt: the bounds check in the code rejects only
`sbn > max_sbn`, so the entry is handed to the ref-count replay and the block
succeeds. -/
theorem c2_sbn_eq_size_applied :
    apply_block_entries (fun _ => ⟨10, 0⟩) 1 5 10 (fun _ _ => .success)
        = (.success, [0]) ∧
    ¬ (10 : Nat) < 10 := by
  constructor
  · simp [apply_block_entries, applyBlockEntriesLoop]
  · decide

/-- The loop returns `VDO_CORRUPT_JOURNAL` at the first out-of-bounds entry,
having applied exactly the in-bounds prefix. -/
theorem applyBlockEntriesLoop_first_bad (entries : Nat → SlabJournalEntry)
    (entryCount blockNumber maxSbn : Nat)
    (replay : Nat × Nat → SlabJournalEntry → VdoStatus) (k : Nat)
    (hk : k < entryCount) (hbad : maxSbn < (entries k).sbn)
    (hgood : ∀ j, j < k →
      (entries j).sbn ≤ maxSbn ∧ replay (blockNumber, j) (entries j) = .success) :
    ∀ i applied, i ≤ k →
      applyBlockEntriesLoop entries entryCount blockNumber maxSbn replay i applied
        = (.corruptJournal, applied ++ List.range' i (k - i)) := by
  suffices H : ∀ n i applied, k - i = n → i ≤ k →
      applyBlockEntriesLoop entries entryCount blockNumber maxSbn replay i applied
        = (.corruptJournal, applied ++ List.range' i (k - i)) by
    intro i applied hik
    exact H (k - i) i applied rfl hik
  intro n
  induction n with
  | zero =>
    intro i applied hki hik
    have hik' : i = k := by omega
    subst hik'
    rw [applyBlockEntriesLoop, dif_pos hk, if_pos hbad]
    simp
  | succ n ih =>
    intro i applied hki hik
    have hlt : i < k := by omega
    obtain ⟨hsbn, hrep⟩ := hgood i hlt
    rw [applyBlockEntriesLoop, dif_pos (by omega), if_neg (by omega), if_pos hrep,
      ih (i + 1) (applied ++ [i]) (by omega) (by omega)]
    have hsplit : List.range' i (k - i) = i :: List.range' (i + 1) n := by
      rw [hki]
      rfl
    have hn : k - (i + 1) = n := by omega
    rw [hn, hsplit]
    simp

/-- C2 (amended): during slab scrubbing, every slab-journal entry whose slab
block number exceeds `slab_size = slab->end - slab->start` (i.e. lies outside
the closed range `[0, slab_size]`) is treated as fatal corruption:
`apply_block_entries` returns `VDO_CORRUPT_JOURNAL` without applying that
entry or any later entry of the block. -/
theorem c2_out_of_bounds_entry_fatal (entries : Nat → SlabJournalEntry)
    (entryCount blockNumber maxSbn : Nat)
    (replay : Nat × Nat → SlabJournalEntry → VdoStatus) (k : Nat)
    (hk : k < entryCount) (hbad : maxSbn < (entries k).sbn)
    (hgood : ∀ j, j < k →
      (entries j).sbn ≤ maxSbn ∧ replay (blockNumber, j) (entries j) = .success) :
    apply_block_entries entries entryCount blockNumber maxSbn replay
      = (.corruptJournal, List.range k) := by
  rw [apply_block_entries,
    applyBlockEntriesLoop_first_bad entries entryCount blockNumber maxSbn replay k
      hk hbad hgood 0 [] (Nat.zero_le k)]
  simp [List.range_eq_range']

/-- Witness for C2 (amended): a three-entry block whose second entry has
`sbn = 11 > 10`: the first entry is applied, the block fails with
`VDO_CORRUPT_JOURNAL`, and entries 1 and 2 are not applied. -/
theorem c2_out_of_bounds_entry_fatal_witness :
    apply_block_entries (fun j => if j = 1 then ⟨11, 0⟩ else ⟨3, 0⟩) 3 5 10
        (fun _ _ => .success)
      = (.corruptJournal, List.range 1) :=
  c2_out_of_bounds_entry_fatal _ 3 5 10 _ 1 (by decide) (by decide)
    (fun j hj => by
      have hj0 : j = 0 := by omega
      subst hj0
      exact ⟨by decide, rfl⟩)

/-- The unpacked header of a slab-journal block
(`unpack_vdo_slab_journal_block_header`). -/
structure SlabJournalBlockHeader where
  head : Nat
  sequenceNumber : Nat
  nonce : Nat
  metadataType : Nat
  entryCount : Nat
  hasBlockMapIncrements : Bool
deriving DecidableEq, Repr

/-- The `VDO_METADATA_SLAB_JOURNAL` tag.  Only equality with it is ever
tested, so its concrete value is immaterial. -/
def VDO_METADATA_SLAB_JOURNAL : Nat := 2

/-- One slab-journal block of the scrubber's in-memory `journal_data`
buffer: its header and its decoded entries. -/
structure ScrubJournalBlock where
  header : SlabJournalBlockHeader
  entries : Nat → SlabJournalEntry

/-- The slab-journal and slab parameters consulted by
`apply_journal_entries`: the journal geometry, the slab's tail sequence
number, the allocator nonce, `slab->end - slab->start`, and the ref-counts'
recorded slab-journal point. -/
structure ScrubConfig where
  journalSize : Nat
  entriesPerBlock : Nat
  fullEntriesPerBlock : Nat
  tail : Nat
  nonce : Nat
  maxSbn : Nat
  refCountsPoint : Nat × Nat
deriving DecidableEq, Repr

/-- Modelled from the spec: `get_vdo_slab_journal_block_offset` lives in
`slabJournalInternals.h`, which is not among the sources; the slab journal is
a per-slab circular log, so a sequence number's block offset is its residue
modulo the journal size. -/
def get_vdo_slab_journal_block_offset (journalSize sequence : Nat) : Nat :=
  sequence % journalSize

/-- Modelled from the spec: `before_vdo_journal_point` lives in a header that
is not among the sources; journal points `(sequence, entry)` are ordered
lexicographically. -/
def before_vdo_journal_point (a b : Nat × Nat) : Bool :=
  a.1 < b.1 || (a.1 = b.1 && a.2 < b.2)

/-- The validation test of `apply_journal_entries` (`slabScrubber.c:346-357`):
a block is rejected when its nonce, metadata type or sequence number is wrong,
its entry count exceeds the per-block limit, or it has block-map increments
and more entries than the full-entry limit. -/
def slabJournalBlockInvalid (cfg : ScrubConfig) (sequence : Nat)
    (hdr : SlabJournalBlockHeader) : Bool :=
  hdr.nonce != cfg.nonce ||
  hdr.metadataType != VDO_METADATA_SLAB_JOURNAL ||
  hdr.sequenceNumber != sequence ||
  hdr.entryCount > cfg.entriesPerBlock ||
  (hdr.hasBlockMapIncrements && hdr.entryCount > cfg.fullEntriesPerBlock)

/-- The observable result of scrubbing one slab's journal: whether
`vdo_enter_read_only_mode` was called (via `abort_scrubbing`), the completion
result, the `(sequence, entry)` pairs handed to the ref-count replay, and
whether the rebuilt ref counts were saved. -/
structure ScrubOutcome where
  readOnly : Bool
  result : VdoStatus
  applied : List (Nat × Nat)
  saved : Bool
deriving DecidableEq, Repr

/-- The per-block loop of `apply_journal_entries` (`slabScrubber.c:337-374`)
together with the final journal-point assertion and the save step.  `index`
wraps to 0 at `journal->size`; `lastApplied` tracks `last_entry_applied`,
whose entry count is a `journal_entry_count_t` (16-bit) and so wraps when a
block has zero entries. -/
def applyJournalEntriesLoop (cfg : ScrubConfig) (blocks : Nat → ScrubJournalBlock)
    (replay : Nat × Nat → SlabJournalEntry → VdoStatus)
    (sequence index : Nat) (applied : List (Nat × Nat))
    (lastApplied : Nat × Nat) : ScrubOutcome :=
  if h : sequence < cfg.tail then
    let block := blocks index
    if slabJournalBlockInvalid cfg sequence block.header then
      { readOnly := true, result := .corruptJournal, applied := applied,
        saved := false }
    else
      let br := apply_block_entries block.entries block.header.entryCount
        sequence cfg.maxSbn replay
      let applied' := applied ++ br.2.map (fun j => (sequence, j))
      if br.1 ≠ .success then
        { readOnly := true, result := br.1, applied := applied', saved := false }
      else
        applyJournalEntriesLoop cfg blocks replay (sequence + 1)
          (if index + 1 = cfg.journalSize then 0 else index + 1) applied'
          (sequence, (block.header.entryCount + (2 ^ 16 - 1)) % 2 ^ 16)
  else
    if before_vdo_journal_point lastApplied cfg.refCountsPoint then
      { readOnly := true, result := .assertionFailed, applied := applied,
        saved := false }
    else
      { readOnly := false, result := .success, applied := applied, saved := true }
termination_by cfg.tail - sequence

/-- Function `apply_journal_entries` (`slabScrubber.c:316-395`): reads `head` from the
last live block, then walks the live range `[head, tail)` applying each
block. -/
def apply_journal_entries (cfg : ScrubConfig) (blocks : Nat → ScrubJournalBlock)
    (replay : Nat × Nat → SlabJournalEntry → VdoStatus) : ScrubOutcome :=
  let endIndex := get_vdo_slab_journal_block_offset cfg.journalSize (cfg.tail - 1)
  let head := (blocks endIndex).header.head
  let headIndex := get_vdo_slab_journal_block_offset cfg.journalSize head
  applyJournalEntriesLoop cfg blocks replay head headIndex [] cfg.refCountsPoint

/-- The buffer index visited by the scrubbing loop at the `k`-th live block:
the head's offset advanced `k` steps around the circular journal. -/
def scrubIndex (cfg : ScrubConfig) (head k : Nat) : Nat :=
  (head % cfg.journalSize + k) % cfg.journalSize

/-- Stepping a circular index: `(a + 1) % n` in terms of `a % n`. -/
theorem mod_succ_step (a n : Nat) :
    (a + 1) % n = if a % n + 1 = n then 0 else a % n + 1 := by
  rcases Nat.eq_zero_or_pos n with h0 | hpos
  · subst h0
    simp
  · have hr : a % n < n := Nat.mod_lt _ hpos
    conv_lhs => rw [← Nat.mod_add_div a n, Nat.add_right_comm,
      Nat.add_mul_mod_self_left]
    by_cases he : a % n + 1 = n
    · rw [if_pos he, he, Nat.mod_self]
    · rw [Nat.mod_eq_of_lt (by omega), if_neg he]

/-- The scrubbing loop aborts at the first invalid block, having applied only
entries of the preceding (valid) blocks. -/
theorem applyJournalEntriesLoop_invalid_aborts (cfg : ScrubConfig)
    (blocks : Nat → ScrubJournalBlock)
    (replay : Nat × Nat → SlabJournalEntry → VdoStatus) (head s : Nat)
    (hs : s < cfg.tail)
    (hbad : slabJournalBlockInvalid cfg s
      (blocks (scrubIndex cfg head (s - head))).header = true)
    (hvalid : ∀ t, head ≤ t → t < s →
      slabJournalBlockInvalid cfg t
          (blocks (scrubIndex cfg head (t - head))).header = false ∧
      (apply_block_entries (blocks (scrubIndex cfg head (t - head))).entries
          (blocks (scrubIndex cfg head (t - head))).header.entryCount
          t cfg.maxSbn replay).1 = .success) :
    ∀ t applied lastApplied, head ≤ t → t ≤ s →
      (∀ p ∈ applied, p.1 < t) →
      ∃ l, applyJournalEntriesLoop cfg blocks replay t
            (scrubIndex cfg head (t - head)) applied lastApplied
          = { readOnly := true, result := .corruptJournal, applied := l,
              saved := false } ∧
        ∀ p ∈ l, p.1 < s ∨ p ∈ applied := by
  suffices H : ∀ n t applied lastApplied, s - t = n → head ≤ t → t ≤ s →
      (∀ p ∈ applied, p.1 < t) →
      ∃ l, applyJournalEntriesLoop cfg blocks replay t
            (scrubIndex cfg head (t - head)) applied lastApplied
          = { readOnly := true, result := .corruptJournal, applied := l,
              saved := false } ∧
        ∀ p ∈ l, p.1 < s ∨ p ∈ applied by
    intro t applied lastApplied h1 h2 h3
    exact H (s - t) t applied lastApplied rfl h1 h2 h3
  intro n
  induction n with
  | zero =>
    intro t applied lastApplied hn h1 h2 h3
    have ht : t = s := by omega
    subst ht
    rw [applyJournalEntriesLoop, dif_pos hs, if_pos hbad]
    exact ⟨applied, rfl, fun p hp => .inr hp⟩
  | succ n ih =>
    intro t applied lastApplied hn h1 h2 h3
    have hts : t < s := by omega
    obtain ⟨hok, happ⟩ := hvalid t h1 hts
    rw [applyJournalEntriesLoop, dif_pos (by omega), if_neg (by simp [hok])]
    have hidx : (if scrubIndex cfg head (t - head) + 1 = cfg.journalSize
        then 0 else scrubIndex cfg head (t - head) + 1)
        = scrubIndex cfg head (t + 1 - head) := by
      unfold scrubIndex
      have h1' : t + 1 - head = (t - head) + 1 := by omega
      rw [h1', ← Nat.add_assoc, mod_succ_step]
    rw [if_neg (by simp [happ]), hidx]
    obtain ⟨l, hl, hlall⟩ := ih (t + 1)
      (applied ++ (apply_block_entries
        (blocks (scrubIndex cfg head (t - head))).entries
        (blocks (scrubIndex cfg head (t - head))).header.entryCount
        t cfg.maxSbn replay).2.map (fun j => (t, j)))
      (t, ((blocks (scrubIndex cfg head (t - head))).header.entryCount
        + (2 ^ 16 - 1)) % 2 ^ 16)
      (by omega) (by omega) (by omega)
      (by
        intro p hp
        rcases List.mem_append.mp hp with hp | hp
        · exact Nat.lt_succ_of_lt (h3 p hp)
        · obtain ⟨j, _, rfl⟩ := List.mem_map.mp hp
          exact Nat.lt_succ_self t)
    refine ⟨l, hl, fun p hp => ?_⟩
    rcases hlall p hp with h | h
    · exact .inl h
    · rcases List.mem_append.mp h with h' | h'
      · exact .inr h'
      · obtain ⟨j, _, rfl⟩ := List.mem_map.mp h'
        exact .inl hts

/-- C3: when a block in the live range `[head, tail)` of a slab's journal
fails validation (and the blocks before it are valid and apply cleanly),
scrubbing aborts with `VDO_CORRUPT_JOURNAL`, the read-only notifier is
entered, the rebuilt ref counts are not saved, and none of the failing
block's entries (nor any later block's) are applied to the reference
counts. -/
theorem c3_invalid_block_aborts_scrubbing (cfg : ScrubConfig)
    (blocks : Nat → ScrubJournalBlock)
    (replay : Nat × Nat → SlabJournalEntry → VdoStatus) (head s : Nat)
    (hhead : (blocks (get_vdo_slab_journal_block_offset cfg.journalSize
      (cfg.tail - 1))).header.head = head)
    (h1 : head ≤ s) (hs : s < cfg.tail)
    (hbad : slabJournalBlockInvalid cfg s
      (blocks (scrubIndex cfg head (s - head))).header = true)
    (hvalid : ∀ t, head ≤ t → t < s →
      slabJournalBlockInvalid cfg t
          (blocks (scrubIndex cfg head (t - head))).header = false ∧
      (apply_block_entries (blocks (scrubIndex cfg head (t - head))).entries
          (blocks (scrubIndex cfg head (t - head))).header.entryCount
          t cfg.maxSbn replay).1 = .success) :
    (apply_journal_entries cfg blocks replay).readOnly = true ∧
    (apply_journal_entries cfg blocks replay).result = .corruptJournal ∧
    (apply_journal_entries cfg blocks replay).saved = false ∧
    ∀ p ∈ (apply_journal_entries cfg blocks replay).applied, p.1 < s := by
  obtain ⟨l, hl, hlall⟩ :=
    applyJournalEntriesLoop_invalid_aborts cfg blocks replay head s hs hbad hvalid
      head [] cfg.refCountsPoint le_rfl h1 (by simp)
  have hmain : apply_journal_entries cfg blocks replay
      = { readOnly := true, result := .corruptJournal, applied := l,
          saved := false } := by
    unfold apply_journal_entries
    simp only [hhead]
    have h0 : get_vdo_slab_journal_block_offset cfg.journalSize head
        = scrubIndex cfg head (head - head) := by
      unfold get_vdo_slab_journal_block_offset scrubIndex
      simp
    rw [h0]
    exact hl
  rw [hmain]
  refine ⟨rfl, rfl, rfl, fun p hp => ?_⟩
  rcases hlall p hp with h | h
  · exact h
  · simp at h

/-- Witness for C3: a two-block journal whose first block (sequence 0) is
valid with one in-bounds entry and whose second block carries the wrong
sequence number: the scrub aborts read-only with `VDO_CORRUPT_JOURNAL`,
having applied only the first block's entry. -/
theorem c3_invalid_block_aborts_scrubbing_witness :
    (apply_journal_entries
        ⟨2, 4, 3, 2, 7, 10, (0, 0)⟩
        (fun i => if i = 0 then
            ⟨⟨0, 0, 7, 2, 1, false⟩, fun _ => ⟨3, 0⟩⟩
          else
            ⟨⟨0, 5, 7, 2, 0, false⟩, fun _ => ⟨3, 0⟩⟩)
        (fun _ _ => .success)).readOnly = true ∧
    (apply_journal_entries
        ⟨2, 4, 3, 2, 7, 10, (0, 0)⟩
        (fun i => if i = 0 then
            ⟨⟨0, 0, 7, 2, 1, false⟩, fun _ => ⟨3, 0⟩⟩
          else
            ⟨⟨0, 5, 7, 2, 0, false⟩, fun _ => ⟨3, 0⟩⟩)
        (fun _ _ => .success)).result = .corruptJournal ∧
    (apply_journal_entries
        ⟨2, 4, 3, 2, 7, 10, (0, 0)⟩
        (fun i => if i = 0 then
            ⟨⟨0, 0, 7, 2, 1, false⟩, fun _ => ⟨3, 0⟩⟩
          else
            ⟨⟨0, 5, 7, 2, 0, false⟩, fun _ => ⟨3, 0⟩⟩)
        (fun _ _ => .success)).saved = false ∧
    ∀ p ∈ (apply_journal_entries
        ⟨2, 4, 3, 2, 7, 10, (0, 0)⟩
        (fun i => if i = 0 then
            ⟨⟨0, 0, 7, 2, 1, false⟩, fun _ => ⟨3, 0⟩⟩
          else
            ⟨⟨0, 5, 7, 2, 0, false⟩, fun _ => ⟨3, 0⟩⟩)
        (fun _ _ => .success)).applied, p.1 < 1 := by
  refine c3_invalid_block_aborts_scrubbing _ _ _ 0 1 (by simp
    [get_vdo_slab_journal_block_offset]) (by omega) (by decide) (by
      simp [scrubIndex, slabJournalBlockInvalid, VDO_METADATA_SLAB_JOURNAL])
    (fun t ht1 ht2 => ?_)
  have ht : t = 0 := by omega
  subst ht
  constructor
  · simp [scrubIndex, slabJournalBlockInvalid, VDO_METADATA_SLAB_JOURNAL]
  · simp [scrubIndex, apply_block_entries, applyBlockEntriesLoop]

/-! ## VDO page cache victim selection (`src/vdo/vdo-page-cache.c`) -/

/-- States of `enum vdo_page_buffer_state` (`vdo-page-cache.c`). -/
inductive PageState where
  | free
  | incoming
  | failed
  | resident
  | dirty
  | outgoing
deriving DecidableEq, Repr

/-- The fields of `struct page_info` consulted by victim selection. -/
structure PageInfo where
  pbn : Nat
  busy : Nat
  state : PageState
deriving DecidableEq, Repr

/-- Predicate `is_dirty` (`vdo-page-cache.c:51-54`). -/
def is_dirty (info : PageInfo) : Bool :=
  info.state == .dirty

/-- Predicate `is_in_flight` (`vdo-page-cache.c:61-64`). -/
def is_in_flight (info : PageInfo) : Bool :=
  info.state == .incoming || info.state == .outgoing

/-- Function `select_lru_page` (`vdo-page-cache.c:604-618`): walk the LRU ring (least
recently used first) and return the first page that is neither busy nor in
flight. -/
def select_lru_page : List PageInfo → Option PageInfo
  | [] => none
  | info :: rest =>
    if info.busy == 0 && !is_in_flight info then some info
    else select_lru_page rest

/-- The page-cache state touched by the discard path: the LRU ring, the
free-waiters queue, and the counters. -/
structure PageCacheState where
  lruList : List PageInfo
  freeWaiters : List Nat
  waiterCount : Nat
  discardCount : Nat
  cachePressure : Nat
deriving DecidableEq, Repr

/-- What `discard_a_page` did: reported cache pressure, handed a clean victim
straight to the oldest free-waiter (`allocate_free_page`), or began saving a
dirty victim (`launch_page_save` with `WRITE_STATUS_DISCARD`). -/
inductive DiscardAction where
  | reportedPressure
  | allocatedFreePage (victim : PageInfo)
  | launchedDiscardSave (victim : PageInfo)
deriving DecidableEq, Repr

/-- Function `report_cache_pressure` (`vdo-page-cache.c:363-376`): bumps the
cache-pressure statistic (the log throttling it also does is not
modelled). -/
def report_cache_pressure (c : PageCacheState) : PageCacheState :=
  { c with cachePressure := c.cachePressure + 1 }

/-- Function `discard_a_page` (`vdo-page-cache.c:1200-1220`).  `allocate_free_page`
and `launch_page_save` are outside the selection logic under scrutiny and are
recorded as actions on the chosen victim. -/
def discard_a_page (c : PageCacheState) : PageCacheState × DiscardAction :=
  match select_lru_page c.lruList with
  | none => (report_cache_pressure c, .reportedPressure)
  | some info =>
    if !is_dirty info then
      (c, .allocatedFreePage info)
    else
      ({ c with discardCount := c.discardCount + 1 }, .launchedDiscardSave info)

/-- Function `discard_page_for_completion` (`vdo-page-cache.c:1228-1244`): enqueue the
requesting completion on the free-waiters queue, then try to discard a
page. -/
def discard_page_for_completion (c : PageCacheState) (waiter : Nat) :
    PageCacheState × DiscardAction :=
  discard_a_page { c with waiterCount := c.waiterCount + 1,
                          freeWaiters := c.freeWaiters ++ [waiter] }

/-- A page found by `select_lru_page` qualifies (non-busy, not in flight) and
everything nearer the least-recently-used end of the ring does not. -/
theorem select_lru_page_some (l : List PageInfo) (v : PageInfo)
    (h : select_lru_page l = some v) :
    (v.busy = 0 ∧ is_in_flight v = false) ∧
    ∃ p q, l = p ++ v :: q ∧
      ∀ u ∈ p, ¬(u.busy = 0 ∧ is_in_flight u = false) := by
  induction l with
  | nil => simp [select_lru_page] at h
  | cons info rest ih =>
    rw [select_lru_page] at h
    by_cases hq : (info.busy == 0 && !is_in_flight info) = true
    · rw [if_pos hq, Option.some_inj] at h
      subst h
      simp only [Bool.and_eq_true, beq_iff_eq, Bool.not_eq_true'] at hq
      exact ⟨hq, [], rest, rfl, by simp⟩
    · rw [if_neg hq] at h
      obtain ⟨hv, p, q, hl, hp⟩ := ih h
      refine ⟨hv, info :: p, q, by rw [hl]; rfl, ?_⟩
      intro u hu
      rcases List.mem_cons.mp hu with rfl | hu
      · intro ⟨hb, hf⟩
        exact hq (by simp [hb, hf])
      · exact hp u hu

/-- When `select_lru_page` finds nothing, every page in the ring is busy or
in flight. -/
theorem select_lru_page_none (l : List PageInfo)
    (h : select_lru_page l = none) :
    ∀ u ∈ l, ¬(u.busy = 0 ∧ is_in_flight u = false) := by
  induction l with
  | nil => simp
  | cons info rest ih =>
    rw [select_lru_page] at h
    by_cases hq : (info.busy == 0 && !is_in_flight info) = true
    · rw [if_pos hq] at h
      exact absurd h (by simp)
    · rw [if_neg hq] at h
      intro u hu
      rcases List.mem_cons.mp hu with rfl | hu
      · intro ⟨hb, hf⟩
        exact hq (by simp [hb, hf])
      · exact ih h u hu

/-- C4: when the cache must discard a page for a waiting completion, the
victim is the least-recently-used page among the non-busy, non-in-flight
pages of the LRU ring; if no page qualifies, nothing is discarded, cache
pressure is reported, and the requester stays on the free-waiters queue. -/
theorem c4_lru_victim (c : PageCacheState) (w : Nat) :
    (∀ v, select_lru_page c.lruList = some v →
      (v.busy = 0 ∧ is_in_flight v = false) ∧
      (∃ p q, c.lruList = p ++ v :: q ∧
        ∀ u ∈ p, ¬(u.busy = 0 ∧ is_in_flight u = false)) ∧
      ((discard_page_for_completion c w).2 = .allocatedFreePage v ∨
       (discard_page_for_completion c w).2 = .launchedDiscardSave v)) ∧
    (select_lru_page c.lruList = none →
      (∀ u ∈ c.lruList, ¬(u.busy = 0 ∧ is_in_flight u = false)) ∧
      (discard_page_for_completion c w).2 = .reportedPressure ∧
      (discard_page_for_completion c w).1.cachePressure = c.cachePressure + 1 ∧
      w ∈ (discard_page_for_completion c w).1.freeWaiters) := by
  constructor
  · intro v hv
    obtain ⟨hqual, hpos⟩ := select_lru_page_some _ _ hv
    refine ⟨hqual, hpos, ?_⟩
    unfold discard_page_for_completion discard_a_page
    simp only [hv]
    by_cases hd : is_dirty v <;> simp [hd]
  · intro hnone
    refine ⟨select_lru_page_none _ hnone, ?_⟩
    unfold discard_page_for_completion discard_a_page
    simp [hnone, report_cache_pressure]

/-- Witness for C4: in the ring `[busy resident page, outgoing page, dirty
page, resident page]` the victim is the dirty page — the least recently used
page that is neither busy nor in flight — and its discard is a save
launch. -/
theorem c4_lru_victim_witness :
    ((⟨3, 0, .dirty⟩ : PageInfo).busy = 0 ∧
      is_in_flight ⟨3, 0, .dirty⟩ = false) ∧
    (∃ p q, [(⟨1, 1, .resident⟩ : PageInfo), ⟨2, 0, .outgoing⟩,
        ⟨3, 0, .dirty⟩, ⟨4, 0, .resident⟩] = p ++ ⟨3, 0, .dirty⟩ :: q ∧
      ∀ u ∈ p, ¬(u.busy = 0 ∧ is_in_flight u = false)) ∧
    ((discard_page_for_completion
        ⟨[⟨1, 1, .resident⟩, ⟨2, 0, .outgoing⟩, ⟨3, 0, .dirty⟩,
          ⟨4, 0, .resident⟩], [], 0, 0, 0⟩ 9).2
        = .allocatedFreePage ⟨3, 0, .dirty⟩ ∨
     (discard_page_for_completion
        ⟨[⟨1, 1, .resident⟩, ⟨2, 0, .outgoing⟩, ⟨3, 0, .dirty⟩,
          ⟨4, 0, .resident⟩], [], 0, 0, 0⟩ 9).2
        = .launchedDiscardSave ⟨3, 0, .dirty⟩) :=
  (c4_lru_victim
    ⟨[⟨1, 1, .resident⟩, ⟨2, 0, .outgoing⟩, ⟨3, 0, .dirty⟩,
      ⟨4, 0, .resident⟩], [], 0, 0, 0⟩ 9).1
    ⟨3, 0, .dirty⟩ (by decide)

/-! ## Packer `write_bin` (`src/vdo/packer.c`) -/

/-- The per-data_vio state consulted by the packer's write path: whether
`may_write_compressed_data_vio` still holds and the compressed fragment
size. -/
structure PackerVio where
  mayWrite : Bool
  size : Nat
deriving DecidableEq, Repr

/-- Function `remove_from_bin` (`packer.c:381-398`): pop data_vios off the top of the
bin's incoming stack (the head of the list here), routing any that may no
longer write compressed data to the canceled bin, until one is found or the
bin is empty.  Returns the removed data_vio, the remaining stack, and the
data_vios sent to the canceled bin. -/
def remove_from_bin : List PackerVio → Option PackerVio × List PackerVio × List PackerVio
  | [] => (none, [], [])
  | v :: rest =>
    if v.mayWrite then
      (some v, rest, [])
    else
      let r := remove_from_bin rest
      (r.1, r.2.1, v :: r.2.2)

/-- The client loop of `write_bin` (`packer.c:476-482`): repeatedly
`remove_from_bin` (inlined here: a popped data_vio that may not write goes to
the canceled bin and is not packed) and `pack_fragment` each client, which
advances the offset by the client's fragment size and the slot counter by
one. -/
def writeBinLoop : List PackerVio → Nat → Nat → Nat × Nat
  | [], offset, slot => (offset, slot)
  | v :: rest, offset, slot =>
    if v.mayWrite then
      writeBinLoop rest (offset + v.size) (slot + 1)
    else
      writeBinLoop rest offset slot

/-- How `write_bin` disposed of its bin. -/
inductive WriteBinOutcome where
  | emptyBin
  | aborted (agent : PackerVio)
  | readOnlyError (agent : PackerVio)
  | prepError (agent : PackerVio)
  | submitted (agent : PackerVio) (slotCount : Nat) (offset : Nat)
deriving DecidableEq, Repr

/-- Whether a compressed-block write was submitted. -/
def WriteBinOutcome.isSubmitted : WriteBinOutcome → Bool
  | .submitted _ _ _ => true
  | _ => false

/-- Function `write_bin` (`packer.c:453-525`).  The compressed block is initialized
with the agent's fragment (`vdo_initialize_compressed_block`), the remaining
clients are packed, and then: a batch whose slot counter is still 1 is
aborted (`abort_packing`, the agent falls back to an uncompressed write); a
read-only VDO fails the agent with `VDO_READ_ONLY`; a failed
`prepare_data_vio_for_io` fails the agent with its error; otherwise the
compressed-block write is submitted. -/
def write_bin (bin : List PackerVio) (readOnly : Bool) (prepOk : Bool) :
    WriteBinOutcome :=
  match remove_from_bin bin with
  | (none, _, _) => .emptyBin
  | (some agent, rest, _) =>
    let packed := writeBinLoop rest agent.size 1
    if packed.2 = 1 then .aborted agent
    else if readOnly then .readOnlyError agent
    else if !prepOk then .prepError agent
    else .submitted agent packed.2 packed.1

/-- The client loop packs exactly the still-compressible clients, summing
their sizes onto the offset and counting them onto the slot counter. -/
theorem writeBinLoop_spec (l : List PackerVio) :
    ∀ offset slot, writeBinLoop l offset slot
      = (offset + ((l.filter (·.mayWrite)).map (·.size)).sum,
         slot + (l.filter (·.mayWrite)).length) := by
  induction l with
  | nil => intro offset slot; simp [writeBinLoop]
  | cons v rest ih =>
    intro offset slot
    by_cases hw : v.mayWrite
    · rw [writeBinLoop, if_pos hw, ih]
      simp [hw]
      omega
    · rw [writeBinLoop, if_neg hw, ih]
      simp [hw]

/-- C6 (amended): a bin whose batch is a single data_vio has its packing
aborted — no compressed-block write is issued and the agent proceeds as a
normal uncompressed write; for a batch of two or more, provided the VDO is
not read-only and the write preparation succeeds, a single compressed block
(initialized from the agent's fragment) is written, holding all the batch's
fragments. -/
theorem c6_single_vio_bin_aborts (bin : List PackerVio) (readOnly prepOk : Bool)
    (agent : PackerVio) (rest canceled : List PackerVio)
    (h : remove_from_bin bin = (some agent, rest, canceled)) :
    (rest.filter (·.mayWrite) = [] →
      write_bin bin readOnly prepOk = .aborted agent) ∧
    (rest.filter (·.mayWrite) ≠ [] → readOnly = false → prepOk = true →
      write_bin bin readOnly prepOk
        = .submitted agent (1 + (rest.filter (·.mayWrite)).length)
            (agent.size + ((rest.filter (·.mayWrite)).map (·.size)).sum)) := by
  constructor
  · intro hempty
    unfold write_bin
    rw [h]
    simp [writeBinLoop_spec, hempty]
  · intro hne hro hok
    unfold write_bin
    rw [h]
    have hlen : (rest.filter (·.mayWrite)).length ≠ 0 := by
      simpa using fun hc => hne (List.length_eq_zero.mp hc)
    simp only [writeBinLoop_spec, hro, hok]
    rw [if_neg (by omega)]
    simp [Nat.add_comm]

/-- Witness for C6: the bin `[agent(200), canceled(50), client(100)]` has a
batch of two; with a writable VDO and successful preparation, one compressed
block of 300 payload bytes over 2 slots is submitted. -/
theorem c6_single_vio_bin_aborts_witness :
    write_bin [⟨true, 200⟩, ⟨false, 50⟩, ⟨true, 100⟩] false true
      = .submitted ⟨true, 200⟩
          (1 + ([(⟨false, 50⟩ : PackerVio), ⟨true, 100⟩].filter
            (·.mayWrite)).length)
          (200 + (([(⟨false, 50⟩ : PackerVio), ⟨true, 100⟩].filter
            (·.mayWrite)).map (·.size)).sum) :=
  (c6_single_vio_bin_aborts [⟨true, 200⟩, ⟨false, 50⟩, ⟨true, 100⟩]
    false true ⟨true, 200⟩ [⟨false, 50⟩, ⟨true, 100⟩] [] (by decide)).2
    (by decide) rfl rfl

/-- C6 counterexample: a batch of two data_vios on a read-only VDO is not
written — `write_bin` fails the agent with `VDO_READ_ONLY` instead — so a
batch of two or more does not unconditionally produce a compressed-block
write. -/
theorem c6_read_only_batch_not_written :
    write_bin [⟨true, 200⟩, ⟨true, 100⟩] true true
        = .readOnlyError ⟨true, 200⟩ ∧
    (write_bin [⟨true, 200⟩, ⟨true, 100⟩] true true).isSubmitted = false ∧
    ([(⟨true, 200⟩ : PackerVio), ⟨true, 100⟩].filter (·.mayWrite)).length = 2 := by
  refine ⟨?_, ?_, ?_⟩ <;> decide

/-! ## Compressed-block fragments (`src/vdo/compressed-block.c`) -/

/-- Constant `VDO_MAX_COMPRESSION_SLOTS` (`blockMappingState.h:43-46`):
`VDO_MAPPING_STATE_COMPRESSED_MAX - VDO_MAPPING_STATE_COMPRESSED_BASE + 1`. -/
def VDO_MAX_COMPRESSION_SLOTS : Nat := 15 - 2 + 1

/-- Constant `COMPRESSED_BLOCK_1_0_SIZE` (`compressed-block.c:32-34`), the size of the
block header: the packed version number plus one `uint16_t` size per slot. -/
def COMPRESSED_BLOCK_1_0_SIZE : Nat := 4 + 4 + 2 * VDO_MAX_COMPRESSION_SLOTS

/-- The compressed-block header as read from the buffer: an unpacked version
number and the array of little-endian `uint16_t` fragment sizes. -/
structure CompressedBlockHeader where
  versionMajor : Nat
  versionMinor : Nat
  sizes : Nat → Nat

/-- Function `get_compressed_fragment_size` (`compressed-block.c:37-42`):
`__le16_to_cpu(header->sizes[slot])`; the stored field is a `uint16_t`. -/
def get_compressed_fragment_size (header : CompressedBlockHeader) (slot : Nat) :
    Nat :=
  header.sizes slot % 2 ^ 16

/-- Function `vdo_is_state_compressed` (`blockMappingState.h`): every state above
`VDO_MAPPING_STATE_UNCOMPRESSED = 1` is a compressed state. -/
def vdo_is_state_compressed (mappingState : Nat) : Bool :=
  mappingState > 1

/-- Function `vdo_get_slot_from_state` (`blockMappingState.h`):
`mapping_state - VDO_MAPPING_STATE_COMPRESSED_BASE` truncated to a byte.
(Callers test `vdo_is_state_compressed` first, so `mappingState ≥ 2`
whenever the value is used.) -/
def vdo_get_slot_from_state (mappingState : Nat) : Nat :=
  (mappingState - 2) % 256

/-- The slot scan of `vdo_get_compressed_block_fragment`
(`compressed-block.c:108-114`): add the sizes of the slots before the wanted
one onto `offset` — a `uint16_t`, so each addition wraps modulo `2^16` —
failing if the offset ever reaches the block size.  `i` is the next slot to
add and `remaining` counts the slots still to scan. -/
def fragmentOffsetScan (header : CompressedBlockHeader) (blockSize : Nat) :
    Nat → Nat → Nat → Option Nat
  | _, 0, offset => some offset
  | i, remaining + 1, offset =>
    let off := (offset + get_compressed_fragment_size header i) % 2 ^ 16
    if blockSize ≤ off then
      none
    else
      fragmentOffsetScan header blockSize (i + 1) remaining off

/-- The result of `vdo_get_compressed_block_fragment`: `VDO_INVALID_FRAGMENT`
or `VDO_SUCCESS` with the `*fragment_offset` and `*fragment_size`
out-parameters. -/
inductive FragmentResult where
  | invalidFragment
  | success (fragmentOffset fragmentSize : Nat)
deriving DecidableEq, Repr

/-- Function `vdo_get_compressed_block_fragment` (`compressed-block.c:81-124`). -/
def vdo_get_compressed_block_fragment (mappingState : Nat)
    (header : CompressedBlockHeader) (blockSize : Nat) : FragmentResult :=
  if !vdo_is_state_compressed mappingState then
    .invalidFragment
  else if ¬(header.versionMajor = 1 ∧ header.versionMinor = 0) then
    .invalidFragment
  else
    let slot := vdo_get_slot_from_state mappingState
    if VDO_MAX_COMPRESSION_SLOTS ≤ slot then
      .invalidFragment
    else
      let compressedSize := get_compressed_fragment_size header slot
      match fragmentOffsetScan header blockSize 0 slot COMPRESSED_BLOCK_1_0_SIZE with
      | none => .invalidFragment
      | some offset =>
        if blockSize < offset + compressedSize then
          .invalidFragment
        else
          .success offset compressedSize

/-- The 16-bit running offset after the first `k` slots: the header size plus
the sizes of slots `0..k-1`, each addition taken modulo `2^16`. -/
def fragmentPartialOffset (header : CompressedBlockHeader) : Nat → Nat
  | 0 => COMPRESSED_BLOCK_1_0_SIZE
  | k + 1 =>
    (fragmentPartialOffset header k + get_compressed_fragment_size header k) % 2 ^ 16

/-- The scan computes the running 16-bit offsets, failing exactly when one of
them reaches the block size. -/
theorem fragmentOffsetScan_spec (header : CompressedBlockHeader)
    (blockSize : Nat) :
    ∀ remaining i, fragmentOffsetScan header blockSize i remaining
        (fragmentPartialOffset header i)
      = if ∃ k < remaining,
            blockSize ≤ fragmentPartialOffset header (i + k + 1) then
          none
        else
          some (fragmentPartialOffset header (i + remaining)) := by
  intro remaining
  induction remaining with
  | zero =>
    intro i
    rw [fragmentOffsetScan]
    have hno : ¬∃ k < 0, blockSize ≤ fragmentPartialOffset header (i + k + 1) := by
      rintro ⟨k, h1, _⟩
      omega
    rw [if_neg hno]
    rfl
  | succ n ih =>
    intro i
    rw [fragmentOffsetScan]
    have hoff : (fragmentPartialOffset header i
        + get_compressed_fragment_size header i) % 2 ^ 16
        = fragmentPartialOffset header (i + 1) := rfl
    simp only [hoff]
    by_cases hhit : blockSize ≤ fragmentPartialOffset header (i + 1)
    · rw [if_pos hhit,
        if_pos ⟨0, by omega, by simpa using hhit⟩]
    · rw [if_neg (by omega), ih (i + 1)]
      by_cases hex : ∃ k < n, blockSize ≤ fragmentPartialOffset header (i + 1 + k + 1)
      · obtain ⟨k, h1, h2⟩ := hex
        rw [if_pos ⟨k, h1, h2⟩,
          if_pos ⟨k + 1, by omega, by
            have he : i + (k + 1) + 1 = i + 1 + k + 1 := by omega
            rw [he]
            exact h2⟩]
      · rw [if_neg hex, if_neg ?_]
        · have he : i + 1 + n = i + (n + 1) := by omega
          rw [he]
        · rintro ⟨k, h1, h2⟩
          match k with
          | 0 => exact hhit (by simpa using h2)
          | k + 1 =>
            refine hex ⟨k, by omega, ?_⟩
            have he : i + 1 + k + 1 = i + (k + 1) + 1 := by omega
            rw [he]
            exact h2

/-- C9 (amended): `vdo_get_compressed_block_fragment` returns
`VDO_INVALID_FRAGMENT` exactly when the mapping state is not compressed, the
header's version differs from 1.0, the slot is at least
`VDO_MAX_COMPRESSION_SLOTS`, one of the running 16-bit offsets (header size
plus the sizes of the earlier slots, each addition wrapping modulo `2^16`)
reaches the block size, or the final offset plus the slot's size exceeds the
block size; otherwise it succeeds with that 16-bit offset and the slot's
stored size. -/
theorem c9_fragment_characterization (mappingState : Nat)
    (header : CompressedBlockHeader) (blockSize : Nat) :
    vdo_get_compressed_block_fragment mappingState header blockSize
      = if mappingState ≤ 1 ∨ ¬(header.versionMajor = 1 ∧ header.versionMinor = 0)
          ∨ VDO_MAX_COMPRESSION_SLOTS ≤ vdo_get_slot_from_state mappingState
          ∨ (∃ k < vdo_get_slot_from_state mappingState,
              blockSize ≤ fragmentPartialOffset header (k + 1))
          ∨ blockSize < fragmentPartialOffset header
                (vdo_get_slot_from_state mappingState)
              + get_compressed_fragment_size header
                (vdo_get_slot_from_state mappingState) then
          .invalidFragment
        else
          .success
            (fragmentPartialOffset header (vdo_get_slot_from_state mappingState))
            (get_compressed_fragment_size header
              (vdo_get_slot_from_state mappingState)) := by
  unfold vdo_get_compressed_block_fragment
  by_cases hstate : vdo_is_state_compressed mappingState
  · have hgt : ¬mappingState ≤ 1 := by
      simpa [vdo_is_state_compressed] using hstate
    rw [if_neg (by simp [hstate])]
    by_cases hver : header.versionMajor = 1 ∧ header.versionMinor = 0
    · rw [if_neg (by simp [hver])]
      by_cases hslot : VDO_MAX_COMPRESSION_SLOTS ≤ vdo_get_slot_from_state mappingState
      · rw [if_pos hslot, if_pos (by tauto)]
      · rw [if_neg hslot]
        have hscan := fragmentOffsetScan_spec header blockSize
          (vdo_get_slot_from_state mappingState) 0
        rw [show fragmentPartialOffset header 0 = COMPRESSED_BLOCK_1_0_SIZE from rfl]
          at hscan
        simp only [Nat.zero_add] at hscan
        simp only [hscan]
        by_cases hex : ∃ k < vdo_get_slot_from_state mappingState,
            blockSize ≤ fragmentPartialOffset header (k + 1)
        · rw [if_pos hex]
          simp only []
          rw [if_pos (Or.inr (Or.inr (Or.inr (Or.inl hex))))]
        · rw [if_neg hex]
          simp only []
          by_cases hfin : blockSize < fragmentPartialOffset header
              (vdo_get_slot_from_state mappingState)
              + get_compressed_fragment_size header
                (vdo_get_slot_from_state mappingState)
          · rw [if_pos hfin, if_pos (by tauto)]
          · rw [if_neg hfin, if_neg ?_]
            rintro (h | h | h | h | h)
            · exact hgt h
            · exact h hver
            · exact hslot h
            · exact hex h
            · exact hfin h
    · rw [if_pos (by simpa using hver), if_pos (by tauto)]
  · have hle : mappingState ≤ 1 := by
      simpa [vdo_is_state_compressed] using hstate
    rw [if_pos (by simp [hstate]), if_pos (by tauto)]

/-- C9 counterexample: mapping state 3 (slot 1) with `sizes[0] = 65535` and
`sizes[1] = 0` in a 4096-byte block.  The exact running offset
`36 + 65535 = 65571` exceeds the block size, so the claim as stated demands
`VDO_INVALID_FRAGMENT`; the code's `uint16_t` offset wraps to 35 and the call
succeeds with `fragment_offset = 35`. -/
theorem c9_offset_wrap_succeeds :
    vdo_get_compressed_block_fragment 3
        ⟨1, 0, fun i => if i = 0 then 65535 else 0⟩ 4096
      = .success 35 0 ∧
    4096 ≤ COMPRESSED_BLOCK_1_0_SIZE + 65535 := by
  exact ⟨rfl, by decide⟩

/-! ## Recovery-journal check byte (`src/vdo/recovery-journal.h`) -/

/-- Function `compute_vdo_recovery_journal_check_byte` (`recovery-journal.h:230-236`):
`((sequence / journal->size) & 0x7F) | 0x80`. -/
def compute_vdo_recovery_journal_check_byte (journalSize sequence : Nat) : Nat :=
  ((sequence / journalSize) &&& 0x7F) ||| 0x80

/-- The check byte's closed form: the trip count modulo 128, offset by the
always-set high bit. -/
theorem check_byte_eq (journalSize sequence : Nat) :
    compute_vdo_recovery_journal_check_byte journalSize sequence
      = (sequence / journalSize) % 128 + 128 := by
  unfold compute_vdo_recovery_journal_check_byte
  have hand : sequence / journalSize &&& 0x7F = sequence / journalSize % 128 := by
    simpa using Nat.and_pow_two_sub_one_eq_mod (sequence / journalSize) 7
  rw [hand, Nat.lor_comm]
  have h7 : sequence / journalSize % 128 < 2 ^ 7 := Nat.mod_lt _ (by norm_num)
  have := Nat.mul_add_lt_is_or (b := sequence / journalSize % 128) h7 1
  simpa [Nat.add_comm] using this.symm

/-- C5: the recovery-journal check byte is `((seq / journal_size) & 0x7F) |
0x80`; its high bit (bit 7) is always set, and stepping `seq` by one changes
the byte exactly when the new sequence number crosses a multiple of the
journal size (a new trip around the journal). -/
theorem c5_check_byte (journalSize sequence : Nat) (_h : 0 < journalSize) :
    compute_vdo_recovery_journal_check_byte journalSize sequence
        = (sequence / journalSize) % 128 + 128 ∧
    (compute_vdo_recovery_journal_check_byte journalSize sequence).testBit 7 = true ∧
    (compute_vdo_recovery_journal_check_byte journalSize (sequence + 1)
        = compute_vdo_recovery_journal_check_byte journalSize sequence
      ↔ ¬ (sequence + 1) % journalSize = 0) := by
  refine ⟨check_byte_eq _ _, ?_, ?_⟩
  · rw [check_byte_eq, Nat.testBit_to_div_mod]
    have : sequence / journalSize % 128 < 128 := Nat.mod_lt _ (by norm_num)
    have hdiv : (sequence / journalSize % 128 + 128) / 2 ^ 7 = 1 := by omega
    simp [hdiv]
  · rw [check_byte_eq, check_byte_eq, Nat.succ_div]
    have hmod : (sequence + 1) % journalSize = 0 ↔ journalSize ∣ (sequence + 1) :=
      Nat.dvd_iff_mod_eq_zero.symm
    by_cases hd : journalSize ∣ (sequence + 1)
    · simp only [hd, if_true]
      rw [hmod]
      have : (sequence / journalSize + 1) % 128 ≠ sequence / journalSize % 128 := by
        omega
      simp [hd, this]
    · simp only [hd, if_false]
      rw [hmod]
      simp [hd]

/-- Witness for C5: journal size 4 at sequence number 7: the byte is
`0x81`, bit 7 is set, and moving to sequence 8 (a multiple of 4) changes
the byte. -/
theorem c5_check_byte_witness :
    0 < 4 ∧
    (compute_vdo_recovery_journal_check_byte 4 7 = 7 / 4 % 128 + 128 ∧
     (compute_vdo_recovery_journal_check_byte 4 7).testBit 7 = true ∧
     (compute_vdo_recovery_journal_check_byte 4 (7 + 1)
         = compute_vdo_recovery_journal_check_byte 4 7
       ↔ ¬ (7 + 1) % 4 = 0)) :=
  ⟨by decide, c5_check_byte 4 7 (by decide)⟩
